import Mathlib

/- Formal model of the paper-trading engine in `live_trading_backend.py`:
the Black-Scholes pricing function, the historical-volatility estimator,
the opportunity scanner, the allocation/rejection policy, and the position
ledger (open, close-at-expiry, daily snapshot with benchmarks).

Monetary quantities, prices, strikes and share counts are modelled as
rationals (`ℚ`): the Python code computes with binary floats, and the
rationals are the exact idealization of that decimal arithmetic.  The
transcendental parts of the pricing model (log, exp, sqrt and the normal
CDF of `scipy.stats.norm`) are modelled over `ℝ`.  Dates are modelled as
integer day numbers; the source stores ISO date strings and compares the
parsed `datetime` values, which is order-isomorphic to comparing day
numbers. -/

namespace PaperTrading

open MeasureTheory

/- ----------------------------------------------------------------------
Pricing model (`black_scholes`, lines 25-39) and volatility estimator
(`calculate_historical_vol`, lines 41-50).
---------------------------------------------------------------------- -/

/-- Standard normal cumulative distribution function: the model of
`scipy.stats.norm.cdf`.  Defined as the integral of the density of the
standard Gaussian measure over `Iic x`. -/
noncomputable def norm_cdf (x : ℝ) : ℝ :=
  ∫ t in Set.Iic x, ProbabilityTheory.gaussianPDFReal 0 1 t

/-- Model of `black_scholes(S, K, T, r, sigma, option_type)` (lines 25-39).
If `T <= 0 or sigma <= 0` the source returns the intrinsic value before
entering the `try` block.  Otherwise it computes the closed form with
`d1`, `d2`.  The source's `except: return 0` guards against exceptions,
but `np.log` / float division emit `nan`/`inf` (warnings are suppressed)
rather than raising, so the total real-valued closed form is the faithful
idealization; `Real.log` is total. -/
noncomputable def black_scholes (S K T r sigma : ℝ) (option_type : String) : ℝ :=
  if T ≤ 0 ∨ sigma ≤ 0 then
    if option_type = "call" then max (S - K) 0 else max (K - S) 0
  else
    let d1 := (Real.log (S / K) + (r + 0.5 * sigma ^ 2) * T) / (sigma * Real.sqrt T)
    let d2 := d1 - sigma * Real.sqrt T
    if option_type = "call" then
      S * norm_cdf d1 - K * Real.exp (-r * T) * norm_cdf d2
    else
      K * norm_cdf (-d2) * Real.exp (-r * T) - S * norm_cdf (-d1)

/-- Day-over-day simple returns of a closing-price series: the model of
`hist['Close'].pct_change().dropna()` (line 45).  `pct_change` yields
`NaN` in the first slot and `(p[i] - p[i-1]) / p[i-1]` afterwards;
`dropna` removes the first slot. -/
def pct_change (closes : List ℚ) : List ℚ :=
  List.zipWith (fun prev cur => (cur - prev) / prev) closes closes.tail

/-- Arithmetic mean of a list of rationals, as a real. -/
noncomputable def list_mean (xs : List ℚ) : ℝ :=
  ((xs.map fun x => (x : ℝ)).sum) / xs.length

/-- Sample standard deviation with the pandas default `ddof=1` (the model
of `Series.std()` on line 50). -/
noncomputable def sample_std (xs : List ℚ) : ℝ :=
  Real.sqrt (((xs.map fun x => ((x : ℝ) - list_mean xs) ^ 2).sum) / (xs.length - 1))

/-- Model of `calculate_historical_vol(ticker, window=30)` (lines 41-50),
abstracted over the fetched closing-price series (the `yfinance` fetch on
lines 43-44 is the external market-data provider).  The source defaults
`window` to 30; here it is an explicit argument. -/
noncomputable def calculate_historical_vol (closes : List ℚ) (window : ℕ) : ℝ :=
  if (pct_change closes).length < window then 0.20
  else
    sample_std ((pct_change closes).drop ((pct_change closes).length - window)) *
      Real.sqrt 252

/- ----------------------------------------------------------------------
Data model: positions, performance stats, snapshots, the portfolio.
---------------------------------------------------------------------- -/

/-- The `action` field of a trade: the source stores the strings
`'SELL'` / `'BUY'`. -/
inductive Action where
  | SELL
  | BUY
deriving DecidableEq, Repr

/-- The `status` field of a position: `'OPEN'` or `'CLOSED'`. -/
inductive Status where
  | OPEN
  | CLOSED
deriving DecidableEq, Repr

/-- A position / trade record, the dict built in `execute_trade`
(lines 279-295), extended with the exit fields set when the position is
closed in `update_positions` (lines 364-368).  The string id
`f"trade_{n}"` is modelled by the number `n`. -/
structure Position where
  id : ℕ
  entry_date : ℤ
  ticker : String
  action : Action
  strike : ℚ
  expiration : ℤ
  contracts : ℤ
  entry_price : ℚ
  premium_collected : ℚ
  premium_paid : ℚ
  entry_stock_price : ℚ
  entry_iv : ℝ
  status : Status
  days_held : ℤ
  current_pnl : ℚ
  exit_date : Option ℤ
  exit_stock_price : Option ℚ
  intrinsic_value : Option ℚ
  pnl : Option ℚ

/-- The `performance_stats` dict (lines 120-127). -/
structure PerfStats where
  total_trades : ℕ
  winning_trades : ℕ
  losing_trades : ℕ
  total_pnl : ℚ
  largest_win : ℚ
  largest_loss : ℚ
deriving DecidableEq, Repr

/-- A daily snapshot (lines 427-433).  The per-ticker benchmark fields
`spy_benchmark`, ..., `qqq_benchmark` are modelled as an association list
keyed by ticker.  `portfolio_value` and `positions_value` involve the
mark-to-market pricing model and are real-valued. -/
structure Snapshot where
  date : ℤ
  portfolio_value : ℝ
  cash : ℚ
  positions_value : ℝ
  benchmarks : List (String × ℚ)

/-- The portfolio state: the JSON document built by
`initialize_portfolio` (lines 101-128).  `benchmark_shares` is the
ticker-keyed dict of fractional share counts. -/
structure Portfolio where
  start_date : ℤ
  initial_capital : ℚ
  current_cash : ℚ
  positions : List Position
  closed_trades : List Position
  daily_snapshots : List Snapshot
  benchmark_shares : List (String × ℚ)
  performance_stats : PerfStats

/-- The tracked index tickers (line 61). -/
def tickers : List String := ["SPY", "VOO", "VTI", "QQQ"]

/-- `self.allocation_per_ticker` (line 62). -/
def allocation_per_ticker : ℚ := 250

/-- `self.r`, the risk-free rate (line 63). -/
def risk_free_rate : ℚ := 45 / 1000

/-- The all-zero starting `performance_stats` (lines 120-127). -/
def initial_stats : PerfStats :=
  { total_trades := 0, winning_trades := 0, losing_trades := 0,
    total_pnl := 0, largest_win := 0, largest_loss := 0 }

/-- Dict lookup in a ticker-keyed association list.  The source indexes
the dict directly; every lookup in the modelled flows hits a present key,
so the default `0` is never observed. -/
def lookup_shares (l : List (String × ℚ)) (t : String) : ℚ :=
  ((l.find? fun p => p.1 = t).map Prod.snd).getD 0

/-- Model of `initialize_portfolio` (lines 88-128), abstracted over the
initial benchmark prices fetched on lines 93-99 and over today's date.
The bootstrap snapshot hard-codes the four benchmark values to 250.
(The source method name contains a word Lean reserves here, hence
`init_portfolio`.) -/
def init_portfolio (today : ℤ) (initPrices : String → ℚ) : Portfolio :=
  { start_date := today
    initial_capital := 1000
    current_cash := 1000
    positions := []
    closed_trades := []
    daily_snapshots := [{ date := today, portfolio_value := 1000, cash := 1000,
                          positions_value := 0,
                          benchmarks := tickers.map fun t => (t, 250) }]
    benchmark_shares := tickers.map fun t => (t, 250 / initPrices t)
    performance_stats := initial_stats }

/- ----------------------------------------------------------------------
Position lifecycle: `update_positions` (lines 313-390).
---------------------------------------------------------------------- -/

/-- Closing an expired position (lines 331-339 and 364-368): the
intrinsic value at the exit spot, the realized P&L formula, and the exit
fields.  Called by `update_positions` on each position whose expiration
has been reached. -/
def close_position (today : ℤ) (current_price : ℚ) (pos : Position) : Position :=
  let intrinsic : ℚ := max (current_price - pos.strike) 0
  let pnl : ℚ :=
    if pos.action = Action.SELL then
      pos.premium_collected - intrinsic * pos.contracts * 100
    else
      intrinsic * pos.contracts * 100 - pos.premium_paid
  { pos with
    exit_date := some today
    exit_stock_price := some current_price
    intrinsic_value := some intrinsic
    pnl := some pnl
    status := Status.CLOSED }

/-- Folding one realized P&L into `performance_stats` (lines 352-362). -/
def record_trade_stats (pnl : ℚ) (s : PerfStats) : PerfStats :=
  let s1 : PerfStats :=
    { s with total_trades := s.total_trades + 1, total_pnl := s.total_pnl + pnl }
  if pnl > 0 then
    { s1 with winning_trades := s1.winning_trades + 1,
              largest_win := if pnl > s1.largest_win then pnl else s1.largest_win }
  else
    { s1 with losing_trades := s1.losing_trades + 1,
              largest_loss := if pnl < s1.largest_loss then pnl else s1.largest_loss }

/-- The loop body of `update_positions` (lines 320-388): walk the open
positions in order, refresh `days_held`, close the expired ones (moving
them to `closed_trades`, adding the realized P&L to cash and folding it
into the stats) and collect the surviving ones in `kept`
(`new_positions` in the source), which becomes the new `positions` list
at the end (line 388). -/
def update_loop (today : ℤ) (priceOf : String → ℚ) :
    List Position → List Position → Portfolio → Portfolio
  | [], kept, p => { p with positions := kept }
  | pos :: rest, kept, p =>
      let pos1 := { pos with days_held := today - pos.entry_date }
      if today ≥ pos.expiration then
        let current_price := priceOf pos.ticker
        let closedPos := close_position today current_price pos1
        let pnl := (closedPos.pnl).getD 0
        update_loop today priceOf rest kept
          { p with
            performance_stats := record_trade_stats pnl p.performance_stats
            current_cash := p.current_cash + pnl
            closed_trades := p.closed_trades ++ [closedPos] }
      else
        update_loop today priceOf rest (kept ++ [pos1]) p

/-- Model of `update_positions` (lines 313-390), abstracted over today's
date and the spot-price lookup (`get_current_price`, an external
market-data call). -/
def update_positions (today : ℤ) (priceOf : String → ℚ) (p : Portfolio) : Portfolio :=
  update_loop today priceOf p.positions [] p

/- ----------------------------------------------------------------------
Opportunity scanner: the per-contract analysis of
`find_option_opportunity` (lines 177-247).
---------------------------------------------------------------------- -/

/-- One row of the call-side option chain returned by the market-data
provider (`chain.calls`).  `impliedVolatility` is optional: the source
reads it with `row.get('impliedVolatility', hist_vol * 1.1)` (line 205),
so a missing field is representable. -/
structure OptionQuote where
  strike : ℚ
  bid : ℚ
  ask : ℚ
  volume : ℚ
  impliedVolatility : Option ℚ
deriving DecidableEq, Repr

/-- The opportunity dict built on lines 220-236. -/
structure Opportunity where
  ticker : String
  action : Action
  strike : ℚ
  expiration : ℤ
  price : ℚ
  market_mid : ℚ
  theoretical : ℝ
  iv : ℝ
  hv : ℝ
  iv_edge : ℝ
  price_edge : ℝ
  price_edge_pct : ℝ
  moneyness : ℚ
  current_stock_price : ℚ
  T : ℝ

/-- The implied volatility used for a quote: the quoted value, or
`hist_vol * 1.1` when the field is missing (line 205). -/
noncomputable def iv_used (q : OptionQuote) (hv : ℝ) : ℝ :=
  match q.impliedVolatility with
  | some v => (v : ℝ)
  | none => hv * 1.1

/-- The liquidity filter of line 182: `volume > 10 and bid > 0.10`. -/
def is_liquid (q : OptionQuote) : Prop :=
  q.volume > 10 ∧ q.bid > 1 / 10

instance (q : OptionQuote) : Decidable (is_liquid q) := by
  unfold is_liquid; infer_instance

/-- The moneyness-band check of lines 198-201: the loop `continue`s
unless `1.05 ≤ strike / spot ≤ 1.15`. -/
def in_band (current_price : ℚ) (q : OptionQuote) : Prop :=
  ¬(q.strike / current_price < 105 / 100 ∨ q.strike / current_price > 115 / 100)

instance (c : ℚ) (q : OptionQuote) : Decidable (in_band c q) := by
  unfold in_band; infer_instance

/-- The price-edge percentage of line 212:
`(market_price - theo_price) / theo_price if theo_price > 0 else 0`. -/
noncomputable def price_edge_pct_of (market_price theo_price : ℝ) : ℝ :=
  if theo_price > 0 then (market_price - theo_price) / theo_price else 0

/-- The theoretical price computed for a quote on line 208:
Black-Scholes at the historical volatility (not the quoted IV). -/
noncomputable def theo_price_of (current_price : ℚ) (T r hv : ℝ) (q : OptionQuote) : ℝ :=
  black_scholes (current_price : ℝ) (q.strike : ℝ) T r hv "call"

/-- The SELL criteria of line 215: `iv_edge > 0.03 and price_edge_pct > 0.05`. -/
noncomputable def qualifies (current_price : ℚ) (T r hv : ℝ) (q : OptionQuote) : Prop :=
  iv_used q hv - hv > 0.03 ∧
  price_edge_pct_of ((q.bid + q.ask) / 2 : ℚ) (theo_price_of current_price T r hv q) > 0.05

/-- The opportunity dict built for a qualifying quote (lines 220-236). -/
noncomputable def mk_opportunity (ticker : String) (expiration : ℤ) (current_price : ℚ)
    (T r hv : ℝ) (q : OptionQuote) : Opportunity :=
  let market_price : ℚ := (q.bid + q.ask) / 2
  let theo := theo_price_of current_price T r hv q
  { ticker := ticker
    action := Action.SELL
    strike := q.strike
    expiration := expiration
    price := q.bid
    market_mid := market_price
    theoretical := theo
    iv := iv_used q hv
    hv := hv
    iv_edge := iv_used q hv - hv
    price_edge := (market_price : ℝ) - theo
    price_edge_pct := price_edge_pct_of (market_price : ℝ) theo
    moneyness := q.strike / current_price
    current_stock_price := current_price
    T := T }

open Classical in
/-- The candidate loop of lines 193-236: walk the liquid quotes in
chain order, skip the out-of-band ones, and keep the qualifying quote
with the strictly largest dollar edge `market_mid - theo` (ties and
edges `≤` the running best, initialized to 0, leave `best` unchanged). -/
noncomputable def scan_loop (ticker : String) (expiration : ℤ) (current_price : ℚ)
    (T r hv : ℝ) :
    List OptionQuote → Option Opportunity × ℝ → Option Opportunity × ℝ
  | [], acc => acc
  | q :: rest, acc =>
      if in_band current_price q then
        if qualifies current_price T r hv q then
          let edge := (((q.bid + q.ask) / 2 : ℚ) : ℝ) - theo_price_of current_price T r hv q
          if edge > acc.2 then
            scan_loop ticker expiration current_price T r hv rest
              (some (mk_opportunity ticker expiration current_price T r hv q), edge)
          else
            scan_loop ticker expiration current_price T r hv rest acc
        else
          scan_loop ticker expiration current_price T r hv rest acc
      else
        scan_loop ticker expiration current_price T r hv rest acc

/-- The per-contract core of `find_option_opportunity` (lines 177-247),
abstracted over the data fetched from the market-data provider: the spot
price, the chosen expiration and its year-fraction `T` (lines 148-175
pick the expiration closest to 30 DTE from the provider's list), the
call chain, and the historical volatility.  Returns the best qualifying
opportunity, or `none` when no liquid in-band quote qualifies (the
source prints a message and returns `None`, never raising). -/
noncomputable def find_option_opportunity (ticker : String) (expiration : ℤ)
    (current_price : ℚ) (T r hv : ℝ) (calls : List OptionQuote) : Option Opportunity :=
  let liquid_calls := calls.filter fun q => decide (is_liquid q)
  if liquid_calls.isEmpty then none
  else (scan_loop ticker expiration current_price T r hv liquid_calls (none, 0)).1

/- ----------------------------------------------------------------------
Allocation policy: `execute_trade` (lines 253-311) and the cap gating in
`run_daily_update` (lines 521-547).
---------------------------------------------------------------------- -/

/-- Why an opportunity was not turned into a trade. -/
inductive RejectReason where
  | duplicate
  | maxTotal
  | tickerCap
  | insufficientCash
deriving DecidableEq, Repr

/-- Python `int(...)` applied to a rational: truncation toward zero
(floor for non-negative values, ceiling for negative ones). -/
def int_trunc (x : ℚ) : ℤ :=
  if 0 ≤ x then ⌊x⌋ else ⌈x⌉

/-- The duplicate check of lines 259-266: an open position with the same
ticker, strike, expiration and action already exists. -/
def duplicate_exists (opp : Opportunity) (p : Portfolio) : Prop :=
  ∃ pos ∈ p.positions, pos.ticker = opp.ticker ∧ pos.strike = opp.strike ∧
    pos.expiration = opp.expiration ∧ pos.action = opp.action

instance (opp : Opportunity) (p : Portfolio) : Decidable (duplicate_exists opp p) := by
  unfold duplicate_exists; infer_instance

/-- The portfolio-wide safety cap of lines 523-526:
`total_open_positions >= 4`. -/
def at_max_positions (p : Portfolio) : Prop :=
  p.positions.length ≥ 4

instance (p : Portfolio) : Decidable (at_max_positions p) := by
  unfold at_max_positions; infer_instance

/-- The per-ticker cap of lines 529-534: `ticker_positions >= 1` where
`ticker_positions` counts the open positions on the opportunity's
ticker. -/
def at_ticker_cap (opp : Opportunity) (p : Portfolio) : Prop :=
  (p.positions.filter fun pos => pos.ticker = opp.ticker).length ≥ 1

instance (opp : Opportunity) (p : Portfolio) : Decidable (at_ticker_cap opp p) := by
  unfold at_ticker_cap; infer_instance

/-- Position sizing (lines 269-271):
`contracts = max(1, int(allocation * 0.02 / (price * 100)))`. -/
def sized_contracts (opp : Opportunity) : ℤ :=
  max 1 (int_trunc (allocation_per_ticker * (2 / 100) / (opp.price * 100)))

/-- `total_premium = contracts * premium_per_contract` (line 271). -/
def sized_premium (opp : Opportunity) : ℚ :=
  (sized_contracts opp : ℚ) * (opp.price * 100)

/-- The cash check of lines 274-276:
`total_premium > self.portfolio['current_cash']`. -/
def cash_insufficient (opp : Opportunity) (p : Portfolio) : Prop :=
  sized_premium opp > p.current_cash

instance (opp : Opportunity) (p : Portfolio) : Decidable (cash_insufficient opp p) := by
  unfold cash_insufficient; infer_instance

/-- The new OPEN position dict of lines 279-295. -/
def mk_trade (today : ℤ) (opp : Opportunity) (p : Portfolio) : Position :=
  { id := p.positions.length + p.closed_trades.length
    entry_date := today
    ticker := opp.ticker
    action := opp.action
    strike := opp.strike
    expiration := opp.expiration
    contracts := sized_contracts opp
    entry_price := opp.price
    premium_collected := if opp.action = Action.SELL then sized_premium opp else 0
    premium_paid := if opp.action = Action.BUY then sized_premium opp else 0
    entry_stock_price := opp.current_stock_price
    entry_iv := opp.iv
    status := Status.OPEN
    days_held := 0
    current_pnl := 0
    exit_date := none
    exit_stock_price := none
    intrinsic_value := none
    pnl := none }

/-- Model of `execute_trade` (lines 253-311).  The source prints a
message and returns `False` on rejection; the model returns the printed
reason alongside the (unchanged) portfolio.  On success the premium
moves cash (collected for SELL, paid for BUY, lines 297-301) and the
position is appended. -/
def execute_trade (today : ℤ) (opp : Opportunity) (p : Portfolio) :
    Option RejectReason × Portfolio :=
  if duplicate_exists opp p then (some RejectReason.duplicate, p)
  else if cash_insufficient opp p then (some RejectReason.insufficientCash, p)
  else
    let trade := mk_trade today opp p
    let cash :=
      if opp.action = Action.SELL then p.current_cash + sized_premium opp
      else p.current_cash - sized_premium opp
    (none, { p with current_cash := cash, positions := p.positions ++ [trade] })

/-- The cap gating of `run_daily_update` applied to one opportunity:
the portfolio-wide `total_open_positions >= 4` skip (lines 523-526),
then the per-ticker `ticker_positions >= 1` skip (lines 529-534), then
`execute_trade`.  This is the full rejection pipeline an opportunity for
a given portfolio state passes through. -/
def evaluate_opportunity (today : ℤ) (opp : Opportunity) (p : Portfolio) :
    Option RejectReason × Portfolio :=
  if at_max_positions p then (some RejectReason.maxTotal, p)
  else if at_ticker_cap opp p then (some RejectReason.tickerCap, p)
  else execute_trade today opp p

/- ----------------------------------------------------------------------
Daily snapshot: `update_daily_snapshot` (lines 392-440).
---------------------------------------------------------------------- -/

/-- Round an integer-valued choice with ties to even, the rounding mode
of Python's `round`. -/
def round_half_even (x : ℚ) : ℤ :=
  if x - ⌊x⌋ = 1 / 2 then (if Even ⌊x⌋ then ⌊x⌋ else ⌊x⌋ + 1) else round x

/-- `round(x, 2)` on an exact rational. -/
def round2 (x : ℚ) : ℚ :=
  (round_half_even (x * 100) : ℚ) / 100

/-- `round(x, 2)` on a real (used for the real-valued snapshot fields). -/
noncomputable def round2_real (x : ℝ) : ℝ :=
  (⌊x * 100 + 1 / 2⌋ : ℝ) / 100

/-- The signed mark-to-market value of one open position (lines
398-412): re-price with Black-Scholes at the entry implied volatility
and the remaining time floored at 0.001 years; a SELL is a liability
(subtracted), a BUY an asset (added). -/
noncomputable def position_mark_value (today : ℤ) (priceOf : String → ℚ)
    (pos : Position) : ℝ :=
  let current_price := priceOf pos.ticker
  let days_to_exp : ℤ := pos.expiration - today
  let T : ℝ := max ((days_to_exp : ℝ) / 365) 0.001
  let option_value :=
    black_scholes (current_price : ℝ) (pos.strike : ℝ) T (risk_free_rate : ℝ)
      pos.entry_iv "call"
  if pos.action = Action.SELL then -(option_value * pos.contracts * 100)
  else option_value * pos.contracts * 100

/-- Model of `update_daily_snapshot` (lines 392-440): mark the open
positions to market, recompute the benchmark share counts from today's
spot prices when (and only when) the bootstrap snapshot is still the
only snapshot (lines 420-422), and append the day's snapshot with all
monetary fields rounded to 2 places. -/
noncomputable def update_daily_snapshot (today : ℤ) (priceOf : String → ℚ)
    (p : Portfolio) : Portfolio :=
  let positions_value : ℝ := (p.positions.map (position_mark_value today priceOf)).sum
  let portfolio_value : ℝ := (p.current_cash : ℝ) + positions_value
  let shares : List (String × ℚ) :=
    if p.daily_snapshots.length = 1 then tickers.map fun t => (t, 250 / priceOf t)
    else p.benchmark_shares
  let snapshot : Snapshot :=
    { date := today
      portfolio_value := round2_real portfolio_value
      cash := round2 p.current_cash
      positions_value := round2_real positions_value
      benchmarks := tickers.map fun t => (t, round2 (lookup_shares shares t * priceOf t)) }
  { p with
    benchmark_shares := shares
    daily_snapshots := p.daily_snapshots ++ [snapshot] }

/- ----------------------------------------------------------------------
The spec's cash-reconciliation quantity (for the cash-conservation
claim).
---------------------------------------------------------------------- -/

/-- Sum of `premium_collected` over a list of positions. -/
def premium_collected_total (l : List Position) : ℚ :=
  (l.map Position.premium_collected).sum

/-- Sum of `premium_paid` over a list of positions. -/
def premium_paid_total (l : List Position) : ℚ :=
  (l.map Position.premium_paid).sum

/-- A closed position's exit payout, `intrinsic * contracts * 100`. -/
def exit_payout (pos : Position) : ℚ :=
  pos.intrinsic_value.getD 0 * pos.contracts * 100

/-- The final-cash value asserted by the spec's cash-conservation
invariant, stated in the spec's own terms (not taken from the source):
initial capital, plus premium collected over all opened SELL positions,
minus premium paid over all opened BUY positions, minus exit payouts
over closed SELLs, plus exit proceeds over closed BUYs. -/
def spec_reconciled_cash (p : Portfolio) : ℚ :=
  p.initial_capital
    + premium_collected_total (p.positions ++ p.closed_trades)
    - premium_paid_total (p.positions ++ p.closed_trades)
    - ((p.closed_trades.filter fun pos => pos.action = Action.SELL).map exit_payout).sum
    + ((p.closed_trades.filter fun pos => pos.action = Action.BUY).map exit_payout).sum

/-- The rejection order asserted by the specification for the
allocation policy, stated in the spec's own words (not taken from the
source): duplicate first, then the portfolio cap, then the per-ticker
cap, then insufficient cash. -/
def claim_reject_order (opp : Opportunity) (p : Portfolio) : Option RejectReason :=
  if duplicate_exists opp p then some RejectReason.duplicate
  else if at_max_positions p then some RejectReason.maxTotal
  else if at_ticker_cap opp p then some RejectReason.tickerCap
  else if cash_insufficient opp p then some RejectReason.insufficientCash
  else none

/- ----------------------------------------------------------------------
Helper lemmas about the position-update loop.
---------------------------------------------------------------------- -/

/-- Every position kept by `update_loop` is unexpired and has its
`days_held` refreshed to `today - entry_date`. -/
lemma update_loop_positions_prop (today : ℤ) (priceOf : String → ℚ) :
    ∀ (l kept : List Position) (p : Portfolio),
      (∀ pos ∈ kept, ¬today ≥ pos.expiration ∧ pos.days_held = today - pos.entry_date) →
      ∀ pos ∈ (update_loop today priceOf l kept p).positions,
        ¬today ≥ pos.expiration ∧ pos.days_held = today - pos.entry_date
  | [], kept, p, hkept => by
      simpa only [update_loop] using hkept
  | pos :: rest, kept, p, hkept => by
      by_cases h : today ≥ pos.expiration
      · simp only [update_loop, if_pos h]
        exact update_loop_positions_prop today priceOf rest kept _ hkept
      · simp only [update_loop, if_neg h]
        refine update_loop_positions_prop today priceOf rest _ _ ?_
        intro q hq
        rcases List.mem_append.1 hq with hq | hq
        · exact hkept q hq
        · rw [List.mem_singleton.1 hq]
          exact ⟨h, rfl⟩

/-- When every position in the list is unexpired and already refreshed,
`update_loop` only re-collects them: nothing closes, cash, closed
trades and stats are untouched. -/
lemma update_loop_fixed (today : ℤ) (priceOf : String → ℚ) :
    ∀ (l kept : List Position) (p : Portfolio),
      (∀ pos ∈ l, ¬today ≥ pos.expiration ∧ pos.days_held = today - pos.entry_date) →
      update_loop today priceOf l kept p = { p with positions := kept ++ l }
  | [], kept, p, _ => by
      simp only [update_loop, List.append_nil]
  | pos :: rest, kept, p, hl => by
      obtain ⟨hexp, hdays⟩ := hl pos (List.mem_cons_self ..)
      have hpos : ({ pos with days_held := today - pos.entry_date } : Position) = pos := by
        rw [← hdays]
      simp only [update_loop, if_neg hexp, hpos]
      rw [update_loop_fixed today priceOf rest (kept ++ [pos]) p
        (fun q hq => hl q (List.mem_cons_of_mem _ hq))]
      simp [List.append_assoc]

/-- C9: running `update_positions` a second time for the same date with
the same spot-price lookup and no intervening state change is a no-op:
no position closes again (a CLOSED position has left the open list),
and cash, closed_trades and performance_stats are unchanged, the state
being exactly the state after the first run. -/
theorem C9_advance_day_idempotent (today : ℤ) (priceOf : String → ℚ) (p : Portfolio) :
    update_positions today priceOf (update_positions today priceOf p) =
      update_positions today priceOf p := by
  have hprop :
      ∀ pos ∈ (update_positions today priceOf p).positions,
        ¬today ≥ pos.expiration ∧ pos.days_held = today - pos.entry_date := by
    apply update_loop_positions_prop today priceOf p.positions [] p
    intro pos hpos
    exact absurd hpos (List.not_mem_nil pos)
  calc update_positions today priceOf (update_positions today priceOf p)
      = { update_positions today priceOf p with
            positions := [] ++ (update_positions today priceOf p).positions } :=
        update_loop_fixed today priceOf _ [] _ hprop
    _ = update_positions today priceOf p := by
        rw [List.nil_append]

/-- C2: when `update_positions` closes an expired SELL position via
`close_position`, the recorded realized P&L is exactly
`premium_collected - max(spot - strike, 0) * contracts * 100`; in
particular with the spot at or below the strike it is exactly
`premium_collected`, and the position becomes CLOSED. -/
theorem C2_sell_close_pnl (today : ℤ) (spot : ℚ) (pos : Position)
    (hsell : pos.action = Action.SELL) :
    (close_position today spot pos).pnl =
        some (pos.premium_collected - max (spot - pos.strike) 0 * pos.contracts * 100) ∧
    (spot ≤ pos.strike →
      (close_position today spot pos).pnl = some pos.premium_collected) ∧
    (close_position today spot pos).status = Status.CLOSED := by
  refine ⟨by simp [close_position, hsell], ?_, by simp [close_position]⟩
  intro hle
  have h0 : max (spot - pos.strike) 0 = 0 := max_eq_right (by linarith)
  simp [close_position, hsell, h0]

/-- A concrete SELL position used to evaluate the closing formula:
premium collected 50, strike 250, one contract. -/
def posC2 : Position :=
  { id := 0, entry_date := 0, ticker := "SPY", action := Action.SELL, strike := 250,
    expiration := 30, contracts := 1, entry_price := 1 / 2, premium_collected := 50,
    premium_paid := 0, entry_stock_price := 227, entry_iv := 0.3, status := Status.OPEN,
    days_held := 0, current_pnl := 0, exit_date := none, exit_stock_price := none,
    intrinsic_value := none, pnl := none }

/-- Witness for C2 at the spec's two worked examples: spot 240 below the
strike gives P&L exactly 50, spot 260 above it gives 50 - 1000 = -950. -/
theorem C2_sell_close_pnl_witness :
    (close_position 30 240 posC2).pnl = some 50 ∧
    (close_position 30 260 posC2).pnl = some (-950) := by
  have h1 := (C2_sell_close_pnl 30 240 posC2 rfl).1
  have h2 := (C2_sell_close_pnl 30 260 posC2 rfl).1
  refine ⟨?_, ?_⟩
  · rw [h1]; norm_num [posC2, max_def]
  · rw [h2]; norm_num [posC2, max_def]

/- ----------------------------------------------------------------------
A concrete one-trade lifecycle, used for the cash-reconciliation and
rejection-order claims.
---------------------------------------------------------------------- -/

/-- A concrete SELL opportunity: SPY call, strike 250, expiring on day
30, filled at bid 0.50 (one contract, premium 50). -/
noncomputable def oppC1 : Opportunity :=
  { ticker := "SPY", action := Action.SELL, strike := 250, expiration := 30,
    price := 1 / 2, market_mid := 3 / 5, theoretical := 0.4, iv := 0.3, hv := 0.2,
    iv_edge := 0.1, price_edge := 0.2, price_edge_pct := 0.5, moneyness := 11 / 10,
    current_stock_price := 227, T := 0.08 }

/-- A fresh portfolio created on day 0 with all benchmark prices 250. -/
def portC1_0 : Portfolio := init_portfolio 0 (fun _ => 250)

/-- The position `execute_trade` opens for `oppC1` on `portC1_0`,
written out explicitly. -/
noncomputable def posC1 : Position :=
  { id := 0, entry_date := 0, ticker := "SPY", action := Action.SELL, strike := 250,
    expiration := 30, contracts := 1, entry_price := 1 / 2, premium_collected := 50,
    premium_paid := 0, entry_stock_price := 227, entry_iv := oppC1.iv,
    status := Status.OPEN, days_held := 0, current_pnl := 0, exit_date := none,
    exit_stock_price := none, intrinsic_value := none, pnl := none }

/-- The portfolio after executing the SELL trade on day 0. -/
noncomputable def portC1_1 : Portfolio := (execute_trade 0 oppC1 portC1_0).2

/-- The portfolio after the expiry cycle on day 30 with SPY spot 240
(below the strike: the option expires worthless). -/
noncomputable def portC1_2 : Portfolio := update_positions 30 (fun _ => 240) portC1_1

lemma floor_tenth : ⌊(1 / 10 : ℚ)⌋ = 0 := by
  rw [Int.floor_eq_zero_iff]
  constructor <;> norm_num

lemma oppC1_action : oppC1.action = Action.SELL := rfl

lemma sized_contracts_oppC1 : sized_contracts oppC1 = 1 := by
  have h1 : allocation_per_ticker * (2 / 100) / (oppC1.price * 100) = 1 / 10 := by
    norm_num [allocation_per_ticker, oppC1]
  rw [sized_contracts, h1, int_trunc, if_pos (by norm_num), floor_tenth]
  norm_num [max_def]

lemma sized_premium_oppC1 : sized_premium oppC1 = 50 := by
  rw [sized_premium, sized_contracts_oppC1]
  norm_num [oppC1]

lemma not_dup_oppC1 : ¬duplicate_exists oppC1 portC1_0 := by
  simp [duplicate_exists, portC1_0, init_portfolio]

lemma cash_ok_oppC1 : ¬cash_insufficient oppC1 portC1_0 := by
  rw [cash_insufficient, sized_premium_oppC1]
  norm_num [portC1_0, init_portfolio]

lemma tradeC1_eq : mk_trade 0 oppC1 portC1_0 = posC1 := by
  rw [mk_trade, posC1]
  simp only [Position.mk.injEq]
  simp [oppC1_action, sized_contracts_oppC1, sized_premium_oppC1, portC1_0, init_portfolio]
  norm_num [oppC1]

lemma portC1_1_eq :
    portC1_1 = { portC1_0 with current_cash := 1050, positions := [posC1] } := by
  rw [portC1_1, execute_trade, if_neg not_dup_oppC1, if_neg cash_ok_oppC1]
  simp only [tradeC1_eq, oppC1_action]
  simp [portC1_0, init_portfolio, sized_premium_oppC1]
  norm_num

/-- The closed record produced on day 30 for `posC1`, written out
explicitly. -/
noncomputable def closedC1 : Position :=
  { posC1 with
    days_held := 30
    exit_date := some 30
    exit_stock_price := some 240
    intrinsic_value := some 0
    pnl := some 50
    status := Status.CLOSED }

lemma portC1_2_eq :
    portC1_2 =
      { portC1_0 with
          performance_stats := record_trade_stats 50 portC1_0.performance_stats,
          current_cash := 1100,
          closed_trades := [closedC1],
          positions := [] } := by
  rw [portC1_2, update_positions, portC1_1_eq]
  simp only [update_loop]
  norm_num [close_position, closedC1, posC1, portC1_0, init_portfolio, max_def]

/-- C1, the failing input for the cash-conservation invariant: a fresh
1000-dollar portfolio sells one contract for a 50-dollar premium and the
position expires worthless on day 30.  The code ends with cash 1100 —
the premium is added to cash at open (line 299) and then again inside
the realized P&L added at close (lines 337 and 371) — while the spec's
reconciliation sums give 1050 (initial 1000 + premium 50 − exit payout
0), so the invariant fails and the premium of every closed SELL is
double-counted. -/
theorem C1_premium_double_counted :
    portC1_2.current_cash = 1100 ∧
    spec_reconciled_cash portC1_2 = 1050 ∧
    portC1_2.current_cash ≠ spec_reconciled_cash portC1_2 := by
  have hcash : portC1_2.current_cash = 1100 := by
    rw [portC1_2_eq]
  have hrec : spec_reconciled_cash portC1_2 = 1050 := by
    rw [spec_reconciled_cash, portC1_2_eq]
    simp only [portC1_0, init_portfolio]
    simp [premium_collected_total, premium_paid_total, exit_payout, closedC1, posC1]
    norm_num
  refine ⟨hcash, hrec, ?_⟩
  rw [hcash, hrec]
  norm_num

/- ----------------------------------------------------------------------
Rejection-order claims.
---------------------------------------------------------------------- -/

lemma portC1_1_not_max : ¬at_max_positions portC1_1 := by
  simp [at_max_positions, portC1_1_eq]

lemma portC1_1_ticker_cap : at_ticker_cap oppC1 portC1_1 := by
  simp [at_ticker_cap, portC1_1_eq, posC1, oppC1]

lemma portC1_1_dup : duplicate_exists oppC1 portC1_1 :=
  ⟨posC1, by simp [portC1_1_eq], rfl, rfl, rfl, rfl⟩

/-- C3, counterexample: a portfolio holding one open SPY position and an
identical SPY opportunity (a duplicate, with plenty of cash and the
portfolio cap not reached).  The claimed check order reports `duplicate`
first, but the code skips the ticker in `run_daily_update` (line 532)
before `execute_trade`'s duplicate check (line 259) can run, so the
reported reason is the per-ticker cap. -/
theorem C3_order_counterexample :
    claim_reject_order oppC1 portC1_1 = some RejectReason.duplicate ∧
    (evaluate_opportunity 0 oppC1 portC1_1).1 = some RejectReason.tickerCap ∧
    some RejectReason.duplicate ≠ some RejectReason.tickerCap := by
  refine ⟨?_, ?_, by simp⟩
  · rw [claim_reject_order, if_pos portC1_1_dup]
  · rw [evaluate_opportunity, if_neg portC1_1_not_max, if_pos portC1_1_ticker_cap]

/-- C3 (amended): the rejection reasons are resolved in the order
(b) portfolio at the 4-position maximum, (c) ticker at its 1-position
cap, (a) duplicate position, (d) insufficient cash — the caps are
checked by the orchestrator before the scanner and `execute_trade` ever
run, so when several reasons apply the reported one is the earliest in
THIS order (in particular a duplicate, which always implies the ticker
cap, is never the reported reason) — and in every rejected case the
portfolio state is returned unchanged, with no trade recorded. -/
theorem C3_rejection_order (today : ℤ) (opp : Opportunity) (p : Portfolio) :
    ((evaluate_opportunity today opp p).1 = some RejectReason.maxTotal ↔
      at_max_positions p) ∧
    ((evaluate_opportunity today opp p).1 = some RejectReason.tickerCap ↔
      ¬at_max_positions p ∧ at_ticker_cap opp p) ∧
    ((evaluate_opportunity today opp p).1 = some RejectReason.duplicate ↔
      ¬at_max_positions p ∧ ¬at_ticker_cap opp p ∧ duplicate_exists opp p) ∧
    ((evaluate_opportunity today opp p).1 = some RejectReason.insufficientCash ↔
      ¬at_max_positions p ∧ ¬at_ticker_cap opp p ∧ ¬duplicate_exists opp p ∧
        cash_insufficient opp p) ∧
    (∀ r, (evaluate_opportunity today opp p).1 = some r →
      (evaluate_opportunity today opp p).2 = p) := by
  by_cases hB : at_max_positions p
  · simp [evaluate_opportunity, hB]
  · by_cases hC : at_ticker_cap opp p
    · simp [evaluate_opportunity, hB, hC]
    · by_cases hA : duplicate_exists opp p
      · simp [evaluate_opportunity, execute_trade, hB, hC, hA]
      · by_cases hD : cash_insufficient opp p
        · simp [evaluate_opportunity, execute_trade, hB, hC, hA, hD]
        · simp [evaluate_opportunity, execute_trade, hB, hC, hA, hD]

/-- Witness for the amended C3 at a concrete input: the duplicate SPY
opportunity is rejected with the per-ticker-cap reason and the portfolio
is unchanged. -/
theorem C3_rejection_order_witness :
    (evaluate_opportunity 0 oppC1 portC1_1).1 = some RejectReason.tickerCap ∧
    (evaluate_opportunity 0 oppC1 portC1_1).2 = portC1_1 := by
  have h := C3_rejection_order 0 oppC1 portC1_1
  have h1 := h.2.1.mpr ⟨portC1_1_not_max, portC1_1_ticker_cap⟩
  exact ⟨h1, h.2.2.2.2 RejectReason.tickerCap h1⟩

/- ----------------------------------------------------------------------
Benchmark-share claims.
---------------------------------------------------------------------- -/

/-- A sequence of daily snapshot updates applied in order. -/
noncomputable def apply_updates (us : List (ℤ × (String → ℚ))) (p : Portfolio) : Portfolio :=
  us.foldl (fun q u => update_daily_snapshot u.1 u.2 q) p

lemma update_snapshot_len (today : ℤ) (prices : String → ℚ) (p : Portfolio) :
    (update_daily_snapshot today prices p).daily_snapshots.length =
      p.daily_snapshots.length + 1 := by
  simp [update_daily_snapshot]

lemma update_snapshot_shares_of_ne (today : ℤ) (prices : String → ℚ) (p : Portfolio)
    (h : p.daily_snapshots.length ≠ 1) :
    (update_daily_snapshot today prices p).benchmark_shares = p.benchmark_shares := by
  simp [update_daily_snapshot, h]

/-- The portfolio after its first `update_daily_snapshot` call, on day 1
with all spot prices 125 (the bootstrap prices were 250). -/
noncomputable def portC5_1 : Portfolio := update_daily_snapshot 1 (fun _ => 125) portC1_0

/-- C5, counterexample: the SPY benchmark share count is 250/250 = 1 at
the first-ever snapshot (created by `initialize_portfolio`), but the
next snapshot call — a later snapshot — recomputes it from that day's
spot (250/125 = 2), so the share count fixed at the first-ever snapshot
is changed by a later snapshot. -/
theorem C5_shares_counterexample :
    lookup_shares portC1_0.benchmark_shares "SPY" = 1 ∧
    lookup_shares portC5_1.benchmark_shares "SPY" = 2 ∧
    (1 : ℚ) ≠ 2 := by
  refine ⟨?_, ?_, by norm_num⟩
  · norm_num [portC1_0, init_portfolio, lookup_shares, tickers]
  · norm_num [portC5_1, update_daily_snapshot, portC1_0, init_portfolio, lookup_shares,
      tickers]

/-- C5 (amended): the benchmark share counts are seeded at portfolio
initialization and then recomputed once more, by the first
`update_daily_snapshot` call (made while the bootstrap snapshot is
still the only snapshot), from that day's spot prices; from the moment
a second snapshot exists they are never changed by any later snapshot
update, and every snapshot appended from then on reports, per ticker,
the fixed share count times that day's spot price (rounded to two
places). -/
theorem C5_shares_fixed (p : Portfolio) (h2 : 2 ≤ p.daily_snapshots.length) :
    (∀ us, (apply_updates us p).benchmark_shares = p.benchmark_shares) ∧
    (∀ (today : ℤ) (prices : String → ℚ),
      ((update_daily_snapshot today prices p).daily_snapshots.getLast?).map
          Snapshot.benchmarks =
        some (tickers.map fun t =>
          (t, round2 (lookup_shares p.benchmark_shares t * prices t)))) := by
  constructor
  · intro us
    induction us generalizing p with
    | nil => rfl
    | cons u rest ih =>
        have hne : p.daily_snapshots.length ≠ 1 := by omega
        have hlen : 2 ≤ (update_daily_snapshot u.1 u.2 p).daily_snapshots.length := by
          rw [update_snapshot_len]
          omega
        calc (apply_updates (u :: rest) p).benchmark_shares
            = (apply_updates rest (update_daily_snapshot u.1 u.2 p)).benchmark_shares := rfl
          _ = (update_daily_snapshot u.1 u.2 p).benchmark_shares := ih _ hlen
          _ = p.benchmark_shares := update_snapshot_shares_of_ne u.1 u.2 p hne
  · intro today prices
    have hne : p.daily_snapshots.length ≠ 1 := by omega
    simp [update_daily_snapshot, hne]

/-- Witness for the amended C5: after the second snapshot exists, two
further updates leave the share counts unchanged, and the appended
snapshot reports share count times spot. -/
theorem C5_shares_fixed_witness :
    (apply_updates [(2, fun _ => 100), (3, fun _ => 80)] portC5_1).benchmark_shares =
      portC5_1.benchmark_shares ∧
    ((update_daily_snapshot 2 (fun _ => 100) portC5_1).daily_snapshots.getLast?).map
        Snapshot.benchmarks =
      some (tickers.map fun t =>
        (t, round2 (lookup_shares portC5_1.benchmark_shares t * 100))) := by
  have h2 : 2 ≤ portC5_1.daily_snapshots.length := by
    rw [portC5_1, update_snapshot_len]
    simp [portC1_0, init_portfolio]
  have h := C5_shares_fixed portC5_1 h2
  exact ⟨h.1 _, h.2 2 _⟩

/- ----------------------------------------------------------------------
Historical-volatility claims.
---------------------------------------------------------------------- -/

/-- C8: with fewer than `window` usable day-over-day returns the
estimator returns exactly the 0.20 fallback; otherwise it returns the
sample standard deviation of the last `window` returns annualized by
the square root of 252. -/
theorem C8_hist_vol_fallback (closes : List ℚ) (window : ℕ) :
    ((pct_change closes).length < window →
      calculate_historical_vol closes window = 0.20) ∧
    (window ≤ (pct_change closes).length →
      calculate_historical_vol closes window =
        sample_std ((pct_change closes).drop ((pct_change closes).length - window)) *
          Real.sqrt 252) := by
  constructor
  · intro h
    rw [calculate_historical_vol, if_pos h]
  · intro h
    rw [calculate_historical_vol, if_neg (by omega)]

/-- The spec's example series: 5 closing prices, so only 4 usable
returns. -/
def closesC8 : List ℚ := [100, 101, 99, 102, 100]

/-- Witness for C8: a 5-point price series with window 30 has fewer
than 30 returns and yields exactly 0.20. -/
theorem C8_hist_vol_fallback_witness :
    (pct_change closesC8).length < 30 ∧
    calculate_historical_vol closesC8 30 = 0.20 := by
  have hlen : (pct_change closesC8).length < 30 := by
    simp [pct_change, closesC8]
  exact ⟨hlen, (C8_hist_vol_fallback closesC8 30).1 hlen⟩

/- ----------------------------------------------------------------------
Pricing-model degeneracy claims.
---------------------------------------------------------------------- -/

/-- C4: whenever `T ≤ 0` or `sigma ≤ 0`, the pricing model returns the
intrinsic value exactly — `max (S-K) 0` for a call and `max (K-S) 0`
for a put — by the early branch, before any closed-form evaluation. -/
theorem C4_degenerate_intrinsic (S K T r sigma : ℝ) (h : T ≤ 0 ∨ sigma ≤ 0) :
    black_scholes S K T r sigma "call" = max (S - K) 0 ∧
    black_scholes S K T r sigma "put" = max (K - S) 0 := by
  constructor
  · rw [black_scholes, if_pos h, if_pos rfl]
  · rw [black_scholes, if_pos h, if_neg (by decide)]

/-- Witness for C4 at `T = 0`: the call is worth its intrinsic value 2
and the put 0. -/
theorem C4_degenerate_intrinsic_witness :
    black_scholes 5 3 0 1 1 "call" = 2 ∧ black_scholes 5 3 0 1 1 "put" = 0 := by
  have h := C4_degenerate_intrinsic 5 3 0 1 1 (Or.inl le_rfl)
  rw [h.1, h.2]
  constructor <;> norm_num [max_def]

/- ----------------------------------------------------------------------
Scanner claims.
---------------------------------------------------------------------- -/

/-- Any opportunity the scanner can return comes from a liquid, in-band,
qualifying quote of the chain. -/
def scanner_ok (ticker : String) (expiration : ℤ) (current_price : ℚ) (T r hv : ℝ)
    (calls : List OptionQuote) (opp : Opportunity) : Prop :=
  ∃ q ∈ calls, is_liquid q ∧ in_band current_price q ∧
    qualifies current_price T r hv q ∧
    opp = mk_opportunity ticker expiration current_price T r hv q

lemma scan_loop_sound (ticker : String) (expiration : ℤ) (current_price : ℚ)
    (T r hv : ℝ) (calls : List OptionQuote) :
    ∀ (l : List OptionQuote) (acc : Option Opportunity × ℝ),
      (∀ q ∈ l, q ∈ calls ∧ is_liquid q) →
      (∀ opp, acc.1 = some opp →
        scanner_ok ticker expiration current_price T r hv calls opp) →
      ∀ opp, (scan_loop ticker expiration current_price T r hv l acc).1 = some opp →
        scanner_ok ticker expiration current_price T r hv calls opp
  | [], acc, _, hacc => by
      intro opp h
      exact hacc opp h
  | q :: rest, acc, hl, hacc => by
      intro opp h
      have hq := hl q (List.mem_cons_self ..)
      have hrest : ∀ x ∈ rest, x ∈ calls ∧ is_liquid x :=
        fun x hx => hl x (List.mem_cons_of_mem _ hx)
      by_cases h1 : in_band current_price q
      · by_cases h2 : qualifies current_price T r hv q
        · by_cases h3 :
            (((q.bid + q.ask) / 2 : ℚ) : ℝ) - theo_price_of current_price T r hv q > acc.2
          · rw [scan_loop, if_pos h1, if_pos h2, if_pos h3] at h
            refine scan_loop_sound ticker expiration current_price T r hv calls rest _
              hrest ?_ opp h
            intro opp2 h2eq
            refine ⟨q, hq.1, hq.2, h1, h2, ?_⟩
            simpa using h2eq.symm
          · rw [scan_loop, if_pos h1, if_pos h2, if_neg h3] at h
            exact scan_loop_sound ticker expiration current_price T r hv calls rest _
              hrest hacc opp h
        · rw [scan_loop, if_pos h1, if_neg h2] at h
          exact scan_loop_sound ticker expiration current_price T r hv calls rest _
            hrest hacc opp h
      · rw [scan_loop, if_neg h1] at h
        exact scan_loop_sound ticker expiration current_price T r hv calls rest _
          hrest hacc opp h

lemma scan_loop_skip_all (ticker : String) (expiration : ℤ) (current_price : ℚ)
    (T r hv : ℝ) :
    ∀ (l : List OptionQuote) (acc : Option Opportunity × ℝ),
      (∀ q ∈ l, ¬(in_band current_price q ∧ qualifies current_price T r hv q)) →
      scan_loop ticker expiration current_price T r hv l acc = acc
  | [], acc, _ => rfl
  | q :: rest, acc, hl => by
      have hq := hl q (List.mem_cons_self ..)
      have hrest : ∀ x ∈ rest, ¬(in_band current_price x ∧ qualifies current_price T r hv x) :=
        fun x hx => hl x (List.mem_cons_of_mem _ hx)
      by_cases h1 : in_band current_price q
      · have h2 : ¬qualifies current_price T r hv q := fun h2 => hq ⟨h1, h2⟩
        rw [scan_loop, if_pos h1, if_neg h2]
        exact scan_loop_skip_all ticker expiration current_price T r hv rest acc hrest
      · rw [scan_loop, if_neg h1]
        exact scan_loop_skip_all ticker expiration current_price T r hv rest acc hrest

/-- C6: any opportunity returned by the scanner comes from a chain quote
passing the liquidity floor (volume > 10 and bid > 0.10) whose moneyness
lies in the inclusive band [1.05, 1.15], and it beats BOTH edge
thresholds: the quoted (or substituted) implied volatility exceeds the
historical volatility by more than 0.03, and the market mid exceeds the
(positive) theoretical value by more than 5 percent of it; when no
liquid in-band quote qualifies, the scanner returns no opportunity (and
never an error). -/
theorem C6_scanner_filters (ticker : String) (expiration : ℤ) (current_price : ℚ)
    (T r hv : ℝ) (calls : List OptionQuote) :
    (∀ opp,
      find_option_opportunity ticker expiration current_price T r hv calls = some opp →
      ∃ q ∈ calls, is_liquid q ∧ in_band current_price q ∧
        qualifies current_price T r hv q ∧
        opp = mk_opportunity ticker expiration current_price T r hv q ∧
        q.volume > 10 ∧ q.bid > 1 / 10 ∧
        105 / 100 ≤ opp.moneyness ∧ opp.moneyness ≤ 115 / 100 ∧
        opp.iv - opp.hv > 0.03 ∧ opp.theoretical > 0 ∧
        ((opp.market_mid : ℝ) - opp.theoretical) / opp.theoretical > 0.05) ∧
    ((∀ q ∈ calls, ¬(is_liquid q ∧ in_band current_price q ∧
        qualifies current_price T r hv q)) →
      find_option_opportunity ticker expiration current_price T r hv calls = none) := by
  constructor
  · intro opp h
    rw [find_option_opportunity] at h
    by_cases hE : (calls.filter fun q => decide (is_liquid q)).isEmpty
    · rw [if_pos hE] at h
      exact absurd h (by simp)
    · rw [if_neg hE] at h
      obtain ⟨q, hqmem, hliq, hband, hqual, heq⟩ :=
        scan_loop_sound ticker expiration current_price T r hv calls _ (none, 0)
          (fun x hx => by
            have := List.mem_filter.1 hx
            exact ⟨this.1, by simpa using this.2⟩)
          (fun opp2 h2 => by simp at h2) opp h
      have hband2 : 105 / 100 ≤ q.strike / current_price ∧
          q.strike / current_price ≤ 115 / 100 := by
        rw [in_band] at hband
        push_neg at hband
        exact ⟨hband.1, hband.2⟩
      have htheo : theo_price_of current_price T r hv q > 0 := by
        by_contra hc
        have := hqual.2
        rw [price_edge_pct_of, if_neg hc] at this
        norm_num at this
      refine ⟨q, hqmem, hliq, hband, hqual, heq, hliq.1, hliq.2, ?_, ?_, ?_, ?_, ?_⟩
      · rw [heq]
        simpa [mk_opportunity] using hband2.1
      · rw [heq]
        simpa [mk_opportunity] using hband2.2
      · rw [heq]
        simpa [mk_opportunity] using hqual.1
      · rw [heq]
        simpa [mk_opportunity] using htheo
      · rw [heq]
        have := hqual.2
        rw [price_edge_pct_of, if_pos htheo] at this
        simpa [mk_opportunity] using this
  · intro hnone
    rw [find_option_opportunity]
    by_cases hE : (calls.filter fun q => decide (is_liquid q)).isEmpty
    · rw [if_pos hE]
    · rw [if_neg hE]
      rw [scan_loop_skip_all ticker expiration current_price T r hv _ (none, 0)
        (fun q hq => by
          have hm := List.mem_filter.1 hq
          have hliq : is_liquid q := by simpa using hm.2
          exact fun hc => hnone q hm.1 ⟨hliq, hc.1, hc.2⟩)]

/-- The concrete quote used to exercise the scanner: liquid, in the
moneyness band, with a quoted implied volatility. -/
def qC6 : OptionQuote :=
  { strike := -110, bid := 1, ask := 21, volume := 20, impliedVolatility := some 1 }

/-- The opportunity the scanner builds for `qC6`. -/
noncomputable def oppC6 : Opportunity := mk_opportunity "SPY" 30 (-100) 0 0 0.2 qC6

lemma theoC6 : theo_price_of (-100) 0 0 0.2 qC6 = 10 := by
  rw [theo_price_of, black_scholes, if_pos (Or.inl le_rfl), if_pos rfl]
  norm_num [qC6, max_def]

lemma bandC6 : in_band (-100) qC6 := by
  norm_num [in_band, qC6]

lemma qualC6 : qualifies (-100) 0 0 0.2 qC6 := by
  constructor
  · simp only [iv_used, qC6]
    norm_num
  · rw [theoC6, price_edge_pct_of, if_pos (by norm_num : (10 : ℝ) > 0)]
    norm_num [qC6]

lemma findC6 : find_option_opportunity "SPY" 30 (-100) 0 0 0.2 [qC6] = some oppC6 := by
  rw [find_option_opportunity]
  have hfil : ([qC6].filter fun q => decide (is_liquid q)) = [qC6] := by
    have : is_liquid qC6 := by norm_num [is_liquid, qC6]
    simp [List.filter, this]
  rw [hfil, if_neg (by simp)]
  have hedge : (((qC6.bid + qC6.ask) / 2 : ℚ) : ℝ) - theo_price_of (-100) 0 0 0.2 qC6 >
      ((none, (0 : ℝ)) : Option Opportunity × ℝ).2 := by
    rw [theoC6]
    norm_num [qC6]
  rw [scan_loop, if_pos bandC6, if_pos qualC6, if_pos hedge, scan_loop]
  rfl

/-- Witness for C6: at the concrete chain `[qC6]` the scanner returns
`oppC6`, and the theorem instantiates to the full list of guarantees
for it. -/
theorem C6_scanner_filters_witness :
    ∃ q ∈ [qC6], is_liquid q ∧ in_band (-100) q ∧ qualifies (-100) 0 0 0.2 q ∧
      oppC6 = mk_opportunity "SPY" 30 (-100) 0 0 0.2 q ∧
      q.volume > 10 ∧ q.bid > 1 / 10 ∧
      105 / 100 ≤ oppC6.moneyness ∧ oppC6.moneyness ≤ 115 / 100 ∧
      oppC6.iv - oppC6.hv > 0.03 ∧ oppC6.theoretical > 0 ∧
      ((oppC6.market_mid : ℝ) - oppC6.theoretical) / oppC6.theoretical > 0.05 :=
  (C6_scanner_filters "SPY" 30 (-100) 0 0 0.2 [qC6]).1 oppC6 findC6

/-- C10: a liquid, in-band quote with no `impliedVolatility` field gets
`1.1 * hv` substituted as its implied volatility, its IV-edge test
`iv - hv > 0.03` becomes `0.1 * hv > 0.03`, and therefore it can
qualify only when the historical volatility exceeds 0.30. -/
theorem C10_substituted_iv (current_price : ℚ) (T r hv : ℝ) (q : OptionQuote)
    (hliq : is_liquid q) (hband : in_band current_price q)
    (hmiss : q.impliedVolatility = none) :
    iv_used q hv = hv * 1.1 ∧
    (iv_used q hv - hv > 0.03 ↔ 0.1 * hv > 0.03) ∧
    (qualifies current_price T r hv q → hv > 0.3) := by
  have h1 : iv_used q hv = hv * 1.1 := by
    simp [iv_used, hmiss]
  refine ⟨h1, ?_, ?_⟩
  · rw [h1]
    constructor <;> intro h <;> linarith
  · intro hq
    have h2 := hq.1
    rw [h1] at h2
    linarith

/-- The concrete quote with a missing implied-volatility field. -/
def qC10 : OptionQuote :=
  { strike := -110, bid := 1, ask := 21, volume := 20, impliedVolatility := none }

/-- Witness for C10 at historical volatility 0.4: the substituted IV is
0.44 and qualification indeed forces hv > 0.3. -/
theorem C10_substituted_iv_witness :
    iv_used qC10 0.4 = 0.4 * 1.1 ∧
    (iv_used qC10 0.4 - 0.4 > 0.03 ↔ (0.1 : ℝ) * 0.4 > 0.03) ∧
    (qualifies (-100) 0 0 0.4 qC10 → (0.4 : ℝ) > 0.3) :=
  C10_substituted_iv (-100) 0 0 0.4 qC10 (by norm_num [is_liquid, qC10])
    (by norm_num [in_band, qC10]) rfl


/- ----------------------------------------------------------------------
Volatility monotonicity of the pricing model.
---------------------------------------------------------------------- -/

/-- The standard normal density, the integrand of `norm_cdf`. -/
noncomputable def std_normal_pdf (x : ℝ) : ℝ :=
  ProbabilityTheory.gaussianPDFReal 0 1 x

lemma std_normal_pdf_eq (x : ℝ) :
    std_normal_pdf x = Real.exp (-(x ^ 2) / 2) / Real.sqrt (2 * Real.pi) := by
  rw [std_normal_pdf, ProbabilityTheory.gaussianPDFReal]
  norm_num
  ring

lemma std_normal_pdf_pos (x : ℝ) : 0 < std_normal_pdf x :=
  ProbabilityTheory.gaussianPDFReal_pos 0 1 x (by norm_num)

lemma std_normal_pdf_integrable : Integrable std_normal_pdf :=
  ProbabilityTheory.integrable_gaussianPDFReal 0 1

lemma std_normal_pdf_continuous : Continuous std_normal_pdf := by
  have : std_normal_pdf = fun x => Real.exp (-(x ^ 2) / 2) / Real.sqrt (2 * Real.pi) :=
    funext std_normal_pdf_eq
  rw [this]
  continuity

lemma std_normal_pdf_total : ∫ x, std_normal_pdf x = 1 :=
  ProbabilityTheory.integral_gaussianPDFReal_eq_one 0 (by norm_num)

lemma norm_cdf_eq (x : ℝ) : norm_cdf x = ∫ t in Set.Iic x, std_normal_pdf t := rfl

lemma norm_cdf_mono : Monotone norm_cdf := by
  intro x y h
  exact setIntegral_mono_set (std_normal_pdf_integrable.integrableOn)
    (ae_of_all _ fun t => (std_normal_pdf_pos t).le)
    ((Set.Iic_subset_Iic.2 h).eventuallyLE)

lemma norm_cdf_nonneg (x : ℝ) : 0 ≤ norm_cdf x :=
  setIntegral_nonneg measurableSet_Iic fun t _ => (std_normal_pdf_pos t).le

lemma norm_cdf_le_one (x : ℝ) : norm_cdf x ≤ 1 := by
  rw [norm_cdf, ← std_normal_pdf_total]
  exact setIntegral_le_integral std_normal_pdf_integrable
    (ae_of_all _ fun t => (std_normal_pdf_pos t).le)

lemma norm_cdf_pos (x : ℝ) : 0 < norm_cdf x := by
  rw [norm_cdf_eq]
  rw [setIntegral_pos_iff_support_of_nonneg_ae
    (ae_of_all _ fun t => (std_normal_pdf_pos t).le)
    std_normal_pdf_integrable.integrableOn]
  have hsupp : Function.support std_normal_pdf = Set.univ := by
    ext t
    simp [Function.mem_support, (std_normal_pdf_pos t).ne']
  rw [hsupp, Set.univ_inter, Real.volume_Iic]
  norm_num

lemma std_normal_pdf_even (x : ℝ) : std_normal_pdf (-x) = std_normal_pdf x := by
  rw [std_normal_pdf_eq, std_normal_pdf_eq, neg_pow]
  norm_num

lemma norm_cdf_neg (x : ℝ) : norm_cdf (-x) = 1 - norm_cdf x := by
  have h1 : norm_cdf (-x) = ∫ t in Set.Ioi x, std_normal_pdf t := by
    rw [norm_cdf_eq]
    have hc : ∀ t ∈ Set.Iic (-x), std_normal_pdf t = std_normal_pdf (-t) := by
      intro t _
      rw [std_normal_pdf_even]
    rw [setIntegral_congr_fun measurableSet_Iic hc,
      integral_comp_neg_Iic (-x) std_normal_pdf, neg_neg]
  have h2 : norm_cdf x + ∫ t in Set.Ioi x, std_normal_pdf t = 1 := by
    rw [norm_cdf_eq, ← std_normal_pdf_total]
    have h3 := integral_add_compl (s := Set.Iic x) (μ := volume) measurableSet_Iic
      std_normal_pdf_integrable
    rw [Set.compl_Iic] at h3
    exact h3
  linarith [h1, h2]

lemma norm_cdf_zero : norm_cdf 0 = 1 / 2 := by
  have := norm_cdf_neg 0
  rw [neg_zero] at this
  linarith

lemma norm_cdf_hasDerivAt (x : ℝ) : HasDerivAt norm_cdf (std_normal_pdf x) x := by
  have hfun : norm_cdf = fun u => norm_cdf 0 + ∫ t in (0:ℝ)..u, std_normal_pdf t := by
    funext u
    rw [norm_cdf_eq, norm_cdf_eq]
    have h4 := intervalIntegral.integral_Iic_sub_Iic
      (std_normal_pdf_integrable.integrableOn (s := Set.Iic 0))
      (std_normal_pdf_integrable.integrableOn (s := Set.Iic u)) (f := std_normal_pdf)
      (μ := volume)
    linarith [h4]
  rw [hfun]
  exact (intervalIntegral.integral_hasDerivAt_right
    (std_normal_pdf_integrable.intervalIntegrable)
    (std_normal_pdf_continuous.stronglyMeasurableAtFilter _ _)
    std_normal_pdf_continuous.continuousAt).const_add _

lemma std_normal_pdf_shift (t a : ℝ) :
    std_normal_pdf (t + a) = std_normal_pdf t * Real.exp (-(t * a) - a ^ 2 / 2) := by
  rw [std_normal_pdf_eq, std_normal_pdf_eq, div_mul_eq_mul_div, ← Real.exp_add]
  congr 2
  ring

lemma norm_cdf_shift (c a : ℝ) :
    norm_cdf (c + a) = ∫ t in Set.Iic c, std_normal_pdf (t + a) := by
  have hemb : MeasurableEmbedding (fun x : ℝ => x + a) := measurableEmbedding_addRight a
  have hmap := MeasurableEmbedding.setIntegral_map (μ := volume) hemb std_normal_pdf
    (Set.Iic (c + a))
  rw [map_add_right_eq_self volume a] at hmap
  have hpre : Set.preimage (fun x : ℝ => x + a) (Set.Iic (c + a)) = Set.Iic c := by
    ext x
    simp
  rw [norm_cdf_eq, hmap, hpre]

lemma pdf_shift_integrable (a : ℝ) : Integrable (fun t => std_normal_pdf (t + a)) :=
  std_normal_pdf_integrable.comp_add_right a

/-- Lower tail-comparison: shifting the argument of the CDF up by `a ≥ 0`
costs at most the factor `exp (-(c*a) - a^2/2)` on `Iic c`. -/
lemma norm_cdf_shift_ge (c a : ℝ) (ha : 0 ≤ a) :
    Real.exp (-(c * a) - a ^ 2 / 2) * norm_cdf c ≤ norm_cdf (c + a) := by
  rw [norm_cdf_shift, norm_cdf_eq, ← integral_mul_left]
  refine setIntegral_mono_on ?_ ?_ measurableSet_Iic ?_
  · exact ((std_normal_pdf_integrable.const_mul _)).integrableOn
  · exact (pdf_shift_integrable a).integrableOn
  · intro t ht
    rw [std_normal_pdf_shift, mul_comm (std_normal_pdf t)]
    refine mul_le_mul_of_nonneg_right ?_ (std_normal_pdf_pos t).le
    refine Real.exp_le_exp.2 ?_
    have := Set.mem_Iic.1 ht
    nlinarith

/-- Upper tail-comparison, the mirror image of `norm_cdf_shift_ge`. -/
lemma norm_cdf_shift_le (c a : ℝ) (ha : 0 ≤ a) :
    norm_cdf (-(c + a)) ≤ Real.exp (-(c * a) - a ^ 2 / 2) * norm_cdf (-c) := by
  rw [show -(c + a) = -c + -a by ring, norm_cdf_shift (-c) (-a), norm_cdf_eq,
    ← integral_mul_left]
  refine setIntegral_mono_on ?_ ?_ measurableSet_Iic ?_
  · exact (pdf_shift_integrable (-a)).integrableOn
  · exact ((std_normal_pdf_integrable.const_mul _)).integrableOn
  · intro t ht
    rw [std_normal_pdf_shift, mul_comm (std_normal_pdf t)]
    refine mul_le_mul_of_nonneg_right ?_ (std_normal_pdf_pos t).le
    refine Real.exp_le_exp.2 ?_
    have := Set.mem_Iic.1 ht
    nlinarith

/-- The normalized distance `d1` of the closed form (line 31). -/
noncomputable def bs_d1 (S K T r sigma : ℝ) : ℝ :=
  (Real.log (S / K) + (r + 0.5 * sigma ^ 2) * T) / (sigma * Real.sqrt T)

/-- The normalized distance `d2 = d1 - sigma * sqrt T` (line 32). -/
noncomputable def bs_d2 (S K T r sigma : ℝ) : ℝ :=
  bs_d1 S K T r sigma - sigma * Real.sqrt T

lemma black_scholes_call_formula (S K T r sigma : ℝ) (hT : 0 < T) (hs : 0 < sigma) :
    black_scholes S K T r sigma "call" =
      S * norm_cdf (bs_d1 S K T r sigma) -
        K * Real.exp (-r * T) * norm_cdf (bs_d2 S K T r sigma) := by
  rw [black_scholes, if_neg (by push_neg; exact ⟨hT, hs⟩), if_pos rfl]
  rfl

lemma bs_pdf_identity (S K u r σ : ℝ) (hS : 0 < S) (hK : 0 < K) (hu : 0 < u)
    (hs : σ ≠ 0) :
    K * Real.exp (-r * u ^ 2) * std_normal_pdf (bs_d2 S K (u ^ 2) r σ) =
      S * std_normal_pdf (bs_d1 S K (u ^ 2) r σ) := by
  have hd : bs_d1 S K (u ^ 2) r σ ^ 2 - bs_d2 S K (u ^ 2) r σ ^ 2
      = 2 * (Real.log (S / K) + r * u ^ 2) := by
    rw [bs_d2, bs_d1, Real.sqrt_sq hu.le]
    field_simp
    ring
  rw [std_normal_pdf_eq, std_normal_pdf_eq]
  have hlog : Real.log (S / K) = Real.log S - Real.log K := Real.log_div hS.ne' hK.ne'
  set d1 := bs_d1 S K (u ^ 2) r σ
  set d2 := bs_d2 S K (u ^ 2) r σ
  rw [← mul_div_assoc, ← mul_div_assoc]
  congr 1
  rw [← Real.exp_log hS, ← Real.exp_log hK, ← Real.exp_add, ← Real.exp_add, ← Real.exp_add]
  rw [Real.exp_eq_exp]
  linarith [hd, hlog]

lemma bs_d1_sq (S K u r v : ℝ) (hu : 0 ≤ u) :
    bs_d1 S K (u ^ 2) r v =
      (Real.log (S / K) + (r + 0.5 * v ^ 2) * u ^ 2) / (v * u) := by
  rw [bs_d1, Real.sqrt_sq hu]

lemma bs_d2_sq (S K u r v : ℝ) (hu : 0 ≤ u) :
    bs_d2 S K (u ^ 2) r v =
      (Real.log (S / K) + (r + 0.5 * v ^ 2) * u ^ 2) / (v * u) - v * u := by
  rw [bs_d2, Real.sqrt_sq hu, bs_d1_sq S K u r v hu]

lemma bs_call_hasDerivAt (S K u r : ℝ) (hS : 0 < S) (hK : 0 < K) (hu : 0 < u)
    {σ : ℝ} (hs : 0 < σ) :
    HasDerivAt (fun v => S * norm_cdf (bs_d1 S K (u ^ 2) r v)
        - K * Real.exp (-r * u ^ 2) * norm_cdf (bs_d2 S K (u ^ 2) r v))
      (S * std_normal_pdf (bs_d1 S K (u ^ 2) r σ) * u) σ := by
  have hσu : σ * u ≠ 0 := (mul_pos hs hu).ne'
  have hN : HasDerivAt (fun v : ℝ => Real.log (S / K) + (r + 0.5 * v ^ 2) * u ^ 2)
      (σ * u ^ 2) σ := by
    have h1 : HasDerivAt (fun v : ℝ => v ^ 2) (2 * σ) σ := by
      simpa using hasDerivAt_pow 2 σ
    have h3 := (((h1.const_mul (0.5 : ℝ)).const_add r).mul_const (u ^ 2)).const_add
      (Real.log (S / K))
    convert h3 using 1
    ring
  have hDen : HasDerivAt (fun v : ℝ => v * u) u σ := hasDerivAt_mul_const u
  have hdiv := hN.div hDen hσu
  have hfun1 : (fun v : ℝ => (Real.log (S / K) + (r + 0.5 * v ^ 2) * u ^ 2) / (v * u))
      = fun v => bs_d1 S K (u ^ 2) r v :=
    funext fun v => (bs_d1_sq S K u r v hu.le).symm
  rw [hfun1] at hdiv
  have hd2 := hdiv.sub hDen
  have hfun2 : (fun v : ℝ => bs_d1 S K (u ^ 2) r v - v * u)
      = fun v => bs_d2 S K (u ^ 2) r v := by
    funext v
    rw [bs_d2_sq S K u r v hu.le, bs_d1_sq S K u r v hu.le]
  rw [hfun2] at hd2
  have hc1 : HasDerivAt (fun v => norm_cdf (bs_d1 S K (u ^ 2) r v))
      (std_normal_pdf (bs_d1 S K (u ^ 2) r σ) *
        ((σ * u ^ 2 * (σ * u) -
          (Real.log (S / K) + (r + 0.5 * σ ^ 2) * u ^ 2) * u) / (σ * u) ^ 2)) σ :=
    (norm_cdf_hasDerivAt (bs_d1 S K (u ^ 2) r σ)).comp σ hdiv
  have hc2 : HasDerivAt (fun v => norm_cdf (bs_d2 S K (u ^ 2) r v))
      (std_normal_pdf (bs_d2 S K (u ^ 2) r σ) *
        ((σ * u ^ 2 * (σ * u) -
          (Real.log (S / K) + (r + 0.5 * σ ^ 2) * u ^ 2) * u) / (σ * u) ^ 2 - u)) σ :=
    (norm_cdf_hasDerivAt (bs_d2 S K (u ^ 2) r σ)).comp σ hd2
  have hF := (hc1.const_mul S).sub (hc2.const_mul (K * Real.exp (-r * u ^ 2)))
  convert hF using 1
  rw [show K * Real.exp (-r * u ^ 2) *
      (std_normal_pdf (bs_d2 S K (u ^ 2) r σ) *
        ((σ * u ^ 2 * (σ * u) -
          (Real.log (S / K) + (r + 0.5 * σ ^ 2) * u ^ 2) * u) / (σ * u) ^ 2 - u))
      = K * Real.exp (-r * u ^ 2) * std_normal_pdf (bs_d2 S K (u ^ 2) r σ) *
        ((σ * u ^ 2 * (σ * u) -
          (Real.log (S / K) + (r + 0.5 * σ ^ 2) * u ^ 2) * u) / (σ * u) ^ 2 - u)
    from by ring]
  rw [bs_pdf_identity S K u r σ hS hK hu hs.ne']
  ring

lemma bs_call_monotoneOn (S K u r : ℝ) (hS : 0 < S) (hK : 0 < K) (hu : 0 < u) :
    MonotoneOn (fun σ => S * norm_cdf (bs_d1 S K (u ^ 2) r σ)
      - K * Real.exp (-r * u ^ 2) * norm_cdf (bs_d2 S K (u ^ 2) r σ)) (Set.Ioi 0) := by
  refine monotoneOn_of_deriv_nonneg (convex_Ioi 0) ?_ ?_ ?_
  · intro x hx
    exact (bs_call_hasDerivAt S K u r hS hK hu
      (Set.mem_Ioi.1 hx)).differentiableAt.continuousAt.continuousWithinAt
  · intro x hx
    rw [interior_Ioi] at hx
    exact (bs_call_hasDerivAt S K u r hS hK hu
      (Set.mem_Ioi.1 hx)).differentiableAt.differentiableWithinAt
  · intro x hx
    rw [interior_Ioi] at hx
    rw [(bs_call_hasDerivAt S K u r hS hK hu (Set.mem_Ioi.1 hx)).deriv]
    have hp := std_normal_pdf_pos (bs_d1 S K (u ^ 2) r x)
    exact mul_nonneg (mul_nonneg hS.le hp.le) hu.le

lemma bs_shift_const (S K u r σ : ℝ) (hS : 0 < S) (hK : 0 < K) (hu : 0 < u)
    (hs : σ ≠ 0) :
    S * Real.exp (-(bs_d2 S K (u ^ 2) r σ * (σ * u)) - (σ * u) ^ 2 / 2) =
      K * Real.exp (-r * u ^ 2) := by
  have hd2 : bs_d2 S K (u ^ 2) r σ * (σ * u) =
      Real.log (S / K) + r * u ^ 2 - σ ^ 2 * u ^ 2 / 2 := by
    rw [bs_d2_sq S K u r σ hu.le]
    field_simp
    ring
  rw [hd2, show -(Real.log (S / K) + r * u ^ 2 - σ ^ 2 * u ^ 2 / 2) - (σ * u) ^ 2 / 2
      = -Real.log (S / K) + -(r * u ^ 2) from by ring]
  rw [Real.exp_add, Real.exp_neg, Real.exp_log (div_pos hS hK)]
  field_simp

lemma bs_call_ge_intrinsic (S K u r σ : ℝ) (hS : 0 < S) (hK : 0 < K) (hu : 0 < u)
    (hr : 0 ≤ r) (hs : 0 < σ) :
    max (S - K) 0 ≤ S * norm_cdf (bs_d1 S K (u ^ 2) r σ)
      - K * Real.exp (-r * u ^ 2) * norm_cdf (bs_d2 S K (u ^ 2) r σ) := by
  have ha : (0 : ℝ) ≤ σ * u := (mul_pos hs hu).le
  have hsum : bs_d2 S K (u ^ 2) r σ + σ * u = bs_d1 S K (u ^ 2) r σ := by
    rw [bs_d2, Real.sqrt_sq hu.le]
    ring
  have hc := bs_shift_const S K u r σ hS hK hu hs.ne'
  have h1 : K * Real.exp (-r * u ^ 2) * norm_cdf (bs_d2 S K (u ^ 2) r σ) ≤
      S * norm_cdf (bs_d1 S K (u ^ 2) r σ) := by
    have hge := norm_cdf_shift_ge (bs_d2 S K (u ^ 2) r σ) (σ * u) ha
    rw [hsum] at hge
    have h3 := mul_le_mul_of_nonneg_left hge hS.le
    have h4 : S * (Real.exp (-(bs_d2 S K (u ^ 2) r σ * (σ * u)) - (σ * u) ^ 2 / 2) *
        norm_cdf (bs_d2 S K (u ^ 2) r σ)) =
        K * Real.exp (-r * u ^ 2) * norm_cdf (bs_d2 S K (u ^ 2) r σ) := by
      rw [← hc]
      ring
    rw [h4] at h3
    exact h3
  have h2 : S - K * Real.exp (-r * u ^ 2) ≤
      S * norm_cdf (bs_d1 S K (u ^ 2) r σ)
        - K * Real.exp (-r * u ^ 2) * norm_cdf (bs_d2 S K (u ^ 2) r σ) := by
    have hle := norm_cdf_shift_le (bs_d2 S K (u ^ 2) r σ) (σ * u) ha
    rw [hsum] at hle
    have h3 := mul_le_mul_of_nonneg_left hle hS.le
    rw [norm_cdf_neg, norm_cdf_neg] at h3
    have h5 : S * (Real.exp (-(bs_d2 S K (u ^ 2) r σ * (σ * u)) - (σ * u) ^ 2 / 2) *
        (1 - norm_cdf (bs_d2 S K (u ^ 2) r σ))) =
        K * Real.exp (-r * u ^ 2) * (1 - norm_cdf (bs_d2 S K (u ^ 2) r σ)) := by
      rw [← hc]
      ring
    rw [h5] at h3
    linarith
  have hK1 : K * Real.exp (-r * u ^ 2) ≤ K := by
    have he : Real.exp (-r * u ^ 2) ≤ Real.exp 0 :=
      Real.exp_le_exp.2 (by nlinarith [sq_nonneg u])
    rw [Real.exp_zero] at he
    nlinarith
  refine max_le (by linarith) (by linarith)

/-- C7 (amended): for positive spot and strike and a non-negative
risk-free rate, the call value returned by `black_scholes` is
monotonically non-decreasing in volatility, including across the
degenerate branch where `sigma ≤ 0` returns the intrinsic value. -/
theorem C7_call_monotone_in_vol (S K T r : ℝ) (hS : 0 < S) (hK : 0 < K) (hr : 0 ≤ r)
    (sigma1 sigma2 : ℝ) (h : sigma1 ≤ sigma2) :
    black_scholes S K T r sigma1 "call" ≤ black_scholes S K T r sigma2 "call" := by
  by_cases hT : T ≤ 0
  · rw [black_scholes, black_scholes, if_pos (Or.inl hT), if_pos (Or.inl hT)]
  · push_neg at hT
    obtain ⟨u, hu, rfl⟩ : ∃ u : ℝ, 0 < u ∧ T = u ^ 2 :=
      ⟨Real.sqrt T, Real.sqrt_pos.2 hT, (Real.sq_sqrt hT.le).symm⟩
    by_cases h2 : sigma2 ≤ 0
    · rw [black_scholes, black_scholes, if_pos (Or.inr (le_trans h h2)),
        if_pos (Or.inr h2)]
    · push_neg at h2
      have hT2 : (0 : ℝ) < u ^ 2 := by positivity
      rw [black_scholes_call_formula S K (u ^ 2) r sigma2 hT2 h2]
      by_cases h1 : sigma1 ≤ 0
      · rw [black_scholes, if_pos (Or.inr h1), if_pos rfl]
        exact bs_call_ge_intrinsic S K u r sigma2 hS hK hu hr h2
      · push_neg at h1
        rw [black_scholes_call_formula S K (u ^ 2) r sigma1 hT2 h1]
        exact bs_call_monotoneOn S K u r hS hK hu (Set.mem_Ioi.2 h1)
          (Set.mem_Ioi.2 h2) h

/-- C7, counterexample: monotonicity in volatility fails across the
degenerate branch for a negative rate (S=100, K=50, T=1, r=-100:
the sigma=0 branch returns intrinsic 50 while sigma=1 prices below 50)
and likewise for a negative strike (S=1, K=-1, T=1, r=10), so the
claim's unrestricted quantification over r (and over K) is false. -/
theorem C7_mono_counterexample :
    ((0 : ℝ) ≤ 1 ∧
      black_scholes 100 50 1 (-100) 1 "call" < black_scholes 100 50 1 (-100) 0 "call") ∧
    ((0 : ℝ) ≤ 1 ∧
      black_scholes 1 (-1) 1 10 1 "call" < black_scholes 1 (-1) 1 10 0 "call") := by
  constructor
  · refine ⟨by norm_num, ?_⟩
    have hrhs : black_scholes 100 50 1 (-100) 0 "call" = 50 := by
      rw [black_scholes, if_pos (Or.inr le_rfl), if_pos rfl]
      norm_num [max_def]
    have hd1v : bs_d1 100 50 1 (-100) 1 = Real.log 2 - 99.5 := by
      rw [bs_d1, Real.sqrt_one, show (100 : ℝ) / 50 = 2 from by norm_num]
      norm_num
      ring
    have hform := black_scholes_call_formula 100 50 1 (-100) 1 (by norm_num) (by norm_num)
    rw [hform, hrhs]
    have hphi1 : norm_cdf (bs_d1 100 50 1 (-100) 1) ≤ 1 / 2 := by
      rw [← norm_cdf_zero]
      apply norm_cdf_mono
      rw [hd1v]
      nlinarith [Real.log_two_lt_d9]
    have hphi2 : 0 < norm_cdf (bs_d2 100 50 1 (-100) 1) := norm_cdf_pos _
    have hE : 0 < Real.exp (-(-100 : ℝ) * 1) := Real.exp_pos _
    nlinarith [mul_pos hE hphi2]
  · refine ⟨by norm_num, ?_⟩
    have hrhs : black_scholes 1 (-1) 1 10 0 "call" = 2 := by
      rw [black_scholes, if_pos (Or.inr le_rfl), if_pos rfl]
      norm_num [max_def]
    have hform := black_scholes_call_formula 1 (-1) 1 10 1 (by norm_num) (by norm_num)
    rw [hform, hrhs]
    have hE1 : Real.exp (-(10 : ℝ) * 1) < 1 := by
      rw [← Real.exp_zero]
      exact Real.exp_lt_exp.2 (by norm_num)
    have hb1 : norm_cdf (bs_d1 1 (-1) 1 10 1) ≤ 1 := norm_cdf_le_one _
    have hb2 : Real.exp (-(10 : ℝ) * 1) * norm_cdf (bs_d2 1 (-1) 1 10 1) ≤
        Real.exp (-(10 : ℝ) * 1) :=
      mul_le_of_le_one_right (Real.exp_pos _).le (norm_cdf_le_one _)
    nlinarith

/-- Witness for the amended C7 at a concrete admissible input, spanning
the degenerate branch: sigma -1 against sigma 1 with r = 0. -/
theorem C7_call_monotone_in_vol_witness :
    black_scholes 100 50 1 0 (-1) "call" ≤ black_scholes 100 50 1 0 1 "call" :=
  C7_call_monotone_in_vol 100 50 1 0 (by norm_num) (by norm_num) le_rfl (-1) 1
    (by norm_num)


end PaperTrading
